import Mathlib

/-!
Shallow embedding of the reconciliation rule engine of `src/src/core/app.py`
(the conciliacontag repository), together with proofs of the behavioural
properties claimed by the specification.

Conventions of the embedding:
* Python strings are Lean `String`s; `str.strip()` is `pyStrip`,
  `str.upper()` / `str.lower()` are `pyUpper` / `pyLower` below, which model
  Python's case mapping on the ASCII and Latin-1 letter ranges (the only
  characters occurring in the rule tables of the source).
* pandas cells that may be `NaN` / empty are `Option` values.
* monetary amounts are rationals (`Rat`).
* external capabilities (the spaCy model, the saved-rules table loaded from
  the database) are explicit parameters of the embedded functions.
-/

namespace Concilia

/-! ## Python string primitives -/

/-- Python `str.upper()` restricted to ASCII and Latin-1 letters: `a`-`z` and
`à`-`þ` (except `÷`) map down by 32 code points; everything else is fixed. -/
def upChar (c : Char) : Char :=
  if 97 ≤ c.toNat ∧ c.toNat ≤ 122 then Char.ofNat (c.toNat - 32)
  else if 0xE0 ≤ c.toNat ∧ c.toNat ≤ 0xFE ∧ c.toNat ≠ 0xF7 then Char.ofNat (c.toNat - 32)
  else c

/-- Python `str.lower()` restricted to ASCII and Latin-1 letters. -/
def downChar (c : Char) : Char :=
  if 65 ≤ c.toNat ∧ c.toNat ≤ 90 then Char.ofNat (c.toNat + 32)
  else if 0xC0 ≤ c.toNat ∧ c.toNat ≤ 0xDE ∧ c.toNat ≠ 0xD7 then Char.ofNat (c.toNat + 32)
  else c

def pyUpper (s : String) : String := String.mk (s.data.map upChar)

def pyLower (s : String) : String := String.mk (s.data.map downChar)

/-- Python `str.strip()` with no argument: remove leading and trailing
whitespace. -/
def pyStrip (s : String) : String :=
  String.mk (((s.data.dropWhile Char.isWhitespace).reverse.dropWhile
    Char.isWhitespace).reverse)

/-- Python `str[:n]`: the first `n` characters. -/
def pyTake (n : Nat) (s : String) : String := String.mk (s.data.take n)

/-- Lower-case (cased) letter in the modelled ASCII/Latin-1 range. -/
def isLowerCased (c : Char) : Bool :=
  (97 ≤ c.toNat && c.toNat ≤ 122) || (0xE0 ≤ c.toNat && c.toNat ≤ 0xFE && c.toNat ≠ 0xF7)

/-- Upper-case (cased) letter in the modelled ASCII/Latin-1 range. -/
def isUpperCased (c : Char) : Bool :=
  (65 ≤ c.toNat && c.toNat ≤ 90) || (0xC0 ≤ c.toNat && c.toNat ≤ 0xDE && c.toNat ≠ 0xD7)

/-- Python `str.isupper()`: at least one cased character and no lower-case
cased character. -/
def pyIsUpper (s : String) : Bool :=
  s.data.any (fun c => isUpperCased c || isLowerCased c) &&
    s.data.all (fun c => !isLowerCased c)

/-- Does `pat` occur at the start of `hay`? (List-of-characters form.) -/
def startsWithL : List Char → List Char → Bool
  | [], _ => true
  | _ :: _, [] => false
  | p :: ps, c :: cs => p == c && startsWithL ps cs

/-- Python's `pat in hay` substring test, on character lists. -/
def containsSubL (pat : List Char) : List Char → Bool
  | [] => startsWithL pat []
  | c :: cs => startsWithL pat (c :: cs) || containsSubL pat cs

/-- Python's `pat in hay` substring containment test. -/
def containsSubstr (hay pat : String) : Bool := containsSubL pat.data hay.data

/-- Python `str.split()` with no argument: split on whitespace runs,
dropping empty fields. -/
def splitWsAux : List Char → List Char → List String
  | [], [] => []
  | [], acc => [String.mk acc.reverse]
  | c :: cs, acc =>
    if c.isWhitespace then
      if acc.isEmpty then splitWsAux cs [] else String.mk acc.reverse :: splitWsAux cs []
    else splitWsAux cs (c :: acc)

def splitWs (s : String) : List String := splitWsAux s.data []

/-! ## Regular-expression fragments of the rule cascade

The cascade uses two fixed `re.search` patterns over `payee`; both are plain
sequences of literal characters and `\d` digit classes, so they are embedded
as token lists searched at every position of the text. -/

inductive PatTok where
  | lit (c : Char)
  | digit
deriving DecidableEq

def tokMatches : PatTok → Char → Bool
  | .lit c, d => c == d
  | .digit, d => d.isDigit

def matchHere : List PatTok → List Char → Bool
  | [], _ => true
  | _ :: _, [] => false
  | p :: ps, c :: cs => tokMatches p c && matchHere ps cs

def regexSearchL (ps : List PatTok) : List Char → Bool
  | [] => matchHere ps []
  | c :: cs => matchHere ps (c :: cs) || regexSearchL ps cs

def regexSearch (ps : List PatTok) (s : String) : Bool := regexSearchL ps s.data

/-- `re.search(r'\*\*\*\.\d{3}\.\d{3}-\*\*', payee)`: masked CPF pattern. -/
def padraoCpfMascarado : List PatTok :=
  [.lit '*', .lit '*', .lit '*', .lit '.', .digit, .digit, .digit,
   .lit '.', .digit, .digit, .digit, .lit '-', .lit '*', .lit '*']

/-- `re.search(r'\d{2}\.\d{3}\.\d{3} \d{4}-\d{2}', payee)`: formatted CNPJ. -/
def padraoCnpj : List PatTok :=
  [.digit, .digit, .lit '.', .digit, .digit, .digit, .lit '.', .digit, .digit,
   .digit, .lit ' ', .digit, .digit, .digit, .digit, .lit '-', .digit, .digit]

/-! ## Data model: OFX transaction rows

`pandas.Timestamp` values are modelled as a day (the calendar date) plus a
time-of-day component; `.dt.normalize()` zeroes the time-of-day. -/

structure PyTimestamp where
  day : Int
  tod : Nat
deriving DecidableEq, Repr

def normalizeTs (t : PyTimestamp) : PyTimestamp := { day := t.day, tod := 0 }

/-- A normalized OFX statement row (`df_extratos_final` in the source). -/
structure OfxTrans where
  data : PyTimestamp
  valor : Rat
  tipo : String
  idtrans : String
  memo : String
  payee : String
  arquivo_origem : String
deriving DecidableEq, Repr

/-! ## Rule Cascade Evaluator (`calcular_credito` / `calcular_debito`) -/

/-- `calcular_credito` of `src/src/core/app.py` (lines 410-423). -/
def calcular_credito (row : OfxTrans) : String :=
  let tipo := pyUpper (pyStrip row.tipo)
  let payee := row.payee
  let memo := row.memo
  if tipo = "CREDIT" then
    if containsSubstr memo "CR COMPRAS" then "15254"
    else if regexSearch padraoCpfMascarado payee then "10550"
    else if regexSearch padraoCnpj payee then "13709"
    else ""
  else ""

/-- `calcular_debito` of `src/src/core/app.py` (lines 425-448). -/
def calcular_debito (row : OfxTrans) : String :=
  let tipo := pyUpper (pyStrip row.tipo)
  let memo := pyUpper (pyStrip row.memo)
  let payee := pyUpper (pyStrip row.payee)
  if tipo = "DEBIT" then
    if containsSubstr memo "TARIFA COBRANÇA" then "52877"
    else if containsSubstr memo "TARIFA ENVIO PIX" then "52878"
    else if containsSubstr memo "DÉBITO PACOTE SERVIÇOS" then "52914"
    else if containsSubstr memo "DEB.PARCELAS SUBSC./INTEGR." then "84618"
    else if containsSubstr payee "UNIMED" then "23921"
    else if containsSubstr payee "CÉDULA DE PRESENÇA" then "26186"
    else if containsSubstr memo "SALARIO" then "20817"
    else if containsSubstr memo "AGUA E ESGOTO" then "52197"
    else ""
  else ""

/-! ## SHA-256 (`hashlib.sha256(...).hexdigest()`)

A direct implementation over `Nat` with explicit reduction modulo `2^32`,
used by `gerar_hash` below. -/

namespace SHA256

def M32 : Nat := 4294967296

def soma32 (a b : Nat) : Nat := (a + b) % M32

/-- Right rotation of a 32-bit word held in a `Nat`. -/
def rot32 (x n : Nat) : Nat := ((x <<< (32 - n)) % M32) ||| (x >>> n)

/-- The 64 round constants of FIPS 180-4, in decimal. -/
def constantesK : List Nat :=
  [1116352408, 1899447441, 3049323471, 3921009573,
   961987163, 1508970993, 2453635748, 2870763221,
   3624381080, 310598401, 607225278, 1426881987,
   1925078388, 2162078206, 2614888103, 3248222580,
   3835390401, 4022224774, 264347078, 604807628,
   770255983, 1249150122, 1555081692, 1996064986,
   2554220882, 2821834349, 2952996808, 3210313671,
   3336571891, 3584528711, 113926993, 338241895,
   666307205, 773529912, 1294757372, 1396182291,
   1695183700, 1986661051, 2177026350, 2456956037,
   2730485921, 2820302411, 3259730800, 3345764771,
   3516065817, 3600352804, 4094571909, 275423344,
   430227734, 506948616, 659060556, 883997877,
   958139571, 1322822218, 1537002063, 1747873779,
   1955562222, 2024104815, 2227730452, 2361852424,
   2428436474, 2756734187, 3204031479, 3329325298]

/-- The eight initial hash words, in decimal. -/
def estadoInicial : List Nat :=
  [1779033703, 3144134277, 1013904242, 2773480762,
   1359893119, 2600822924, 528734635, 1541459225]

/-- Big-endian 8-byte encoding of the bit length. -/
def comprimentoBytes (n : Nat) : List Nat :=
  [n >>> 56 % 256, n >>> 48 % 256, n >>> 40 % 256, n >>> 32 % 256,
   n >>> 24 % 256, n >>> 16 % 256, n >>> 8 % 256, n % 256]

/-- Pad the byte message: a `128` byte, zeros to 56 mod 64, then the
8-byte bit length. -/
def preencher (msg : List Nat) : List Nat :=
  let len := msg.length
  msg ++ 128 :: List.replicate ((120 - (len + 1) % 64) % 64) 0 ++ comprimentoBytes (len * 8)

/-- Big-endian 4-byte groups to 32-bit words. -/
def paraPalavras : List Nat → List Nat
  | a :: b :: c :: d :: rest => (((a * 256 + b) * 256 + c) * 256 + d) :: paraPalavras rest
  | _ => []

/-- Split the word stream into 16-word chunks. -/
def emBlocos : List Nat → List (List Nat)
  | [] => []
  | x :: xs => ((x :: xs).take 16) :: emBlocos ((x :: xs).drop 16)
termination_by l => l.length
decreasing_by simp [List.length_drop]; omega

def sigmaP0 (x : Nat) : Nat := (x >>> 3) ^^^ (rot32 x 7 ^^^ rot32 x 18)
def sigmaP1 (x : Nat) : Nat := (x >>> 10) ^^^ (rot32 x 17 ^^^ rot32 x 19)
def sigmaG0 (x : Nat) : Nat := rot32 x 2 ^^^ (rot32 x 13 ^^^ rot32 x 22)
def sigmaG1 (x : Nat) : Nat := rot32 x 6 ^^^ (rot32 x 11 ^^^ rot32 x 25)
def escolha (x y z : Nat) : Nat := (x &&& y) ^^^ ((4294967295 ^^^ x) &&& z)
def maioria (x y z : Nat) : Nat := ((x &&& y) ^^^ (x &&& z)) ^^^ (y &&& z)

/-- Extend a 16-word block to the 64-word message schedule. -/
def expandir (w0 : List Nat) : List Nat :=
  (List.range 48).foldl
    (fun w j =>
      w ++ [soma32 (soma32 (sigmaP1 (w.getD (j + 14) 0)) (w.getD (j + 9) 0))
              (soma32 (sigmaP0 (w.getD (j + 1) 0)) (w.getD j 0))])
    w0

/-- One compression round over the running hash `h`. -/
def comprimir (h : List Nat) (blk : List Nat) : List Nat :=
  let w := expandir blk
  let st0 := (h.getD 0 0, h.getD 1 0, h.getD 2 0, h.getD 3 0,
              h.getD 4 0, h.getD 5 0, h.getD 6 0, h.getD 7 0)
  let stf := (List.range 64).foldl
    (fun st i =>
      match st with
      | (a, b, c, d, e, f, g, hh) =>
        let t1 := soma32 (soma32 hh (sigmaG1 e))
                    (soma32 (escolha e f g) (soma32 (constantesK.getD i 0) (w.getD i 0)))
        let t2 := soma32 (sigmaG0 a) (maioria a b c)
        (soma32 t1 t2, a, b, c, soma32 d t1, e, f, g)) st0
  match stf with
  | (a, b, c, d, e, f, g, hh) =>
    [soma32 (h.getD 0 0) a, soma32 (h.getD 1 0) b, soma32 (h.getD 2 0) c,
     soma32 (h.getD 3 0) d, soma32 (h.getD 4 0) e, soma32 (h.getD 5 0) f,
     soma32 (h.getD 6 0) g, soma32 (h.getD 7 0) hh]

def digitoHex (n : Nat) : Char :=
  if n < 10 then Char.ofNat (48 + n) else Char.ofNat (87 + n)

def palavraHex (x : Nat) : List Char :=
  [digitoHex (x >>> 28 % 16), digitoHex (x >>> 24 % 16), digitoHex (x >>> 20 % 16),
   digitoHex (x >>> 16 % 16), digitoHex (x >>> 12 % 16), digitoHex (x >>> 8 % 16),
   digitoHex (x >>> 4 % 16), digitoHex (x % 16)]

/-- Hex digest of the SHA-256 of the UTF-8 encoding of `s`. -/
def hexdigest (s : String) : String :=
  let msg := (s.toUTF8.toList.map UInt8.toNat)
  let hfin := (emBlocos (paraPalavras (preencher msg))).foldl comprimir estadoInicial
  String.mk (hfin.foldr (fun w acc => palavraHex w ++ acc) [])

end SHA256

/-! ## Rule Persistence / Learning Layer -/

/-- A row of the final conciliation dataset (`df_conciliacao`). -/
structure ConcRow where
  selecionar : Bool
  debito : String
  credito : String
  historico : String
  data : String
  valor : String
  complemento : String
  origem : String
deriving DecidableEq, Repr

/-- Python `complemento.split('|')` (single-character separator split). -/
def pySplitAux (sep : Char) : List Char → List Char → List String
  | [], acc => [String.mk acc.reverse]
  | c :: cs, acc =>
    if c == sep then String.mk acc.reverse :: pySplitAux sep cs []
    else pySplitAux sep cs (c :: acc)

def pySplitChar (sep : Char) (s : String) : List String := pySplitAux sep s.data []

/-- `criar_chave_regra` of `src/src/core/app.py` (lines 295-315). -/
def criar_chave_regra (row : ConcRow) : String :=
  let complemento := row.complemento
  let origem := pyLower row.origem
  if containsSubstr origem "juros de mora" then
    pyStrip ((pySplitChar '|' complemento).headD "")
  else if containsSubstr origem "francesinha" then
    pyStrip ((pySplitChar '|' complemento).headD "")
  else
    let parts := pySplitChar '|' complemento
    if parts.length > 2 then
      pyStrip (parts.getD 0 "") ++ " | " ++ pyStrip (parts.getD 1 "")
    else pyStrip complemento

/-- `gerar_hash` of `src/src/core/app.py` (lines 317-321): `None` on a
falsy (empty) text, otherwise the SHA-256 hex digest. -/
def gerar_hash (texto : String) : Option String :=
  if texto = "" then none else some (SHA256.hexdigest texto)

/-- A saved rule as loaded by `carregar_regras_conciliacao`: the
debit/credit/history fields stored against a complement hash. -/
structure Regra where
  debito : String
  credito : String
  historico : String
deriving DecidableEq, Repr

/-- First-match lookup in an association list keyed by strings, modelling a
Python dict `.get`. -/
def dlookup {β : Type} : List (String × β) → String → Option β
  | [], _ => none
  | (k, v) :: rest, s => if s = k then some v else dlookup rest s

/-- The three guarded assignments of the `regras_salvas` loop body: each of
debit/credit/history is overwritten only where the saved field is truthy
(non-empty), `src/src/core/app.py` lines 1086-1091. -/
def sobrescrever_campos (regra : Regra) (row : ConcRow) : ConcRow :=
  let r1 := if regra.debito ≠ "" then { row with debito := regra.debito } else row
  let r2 := if regra.credito ≠ "" then { r1 with credito := regra.credito } else r1
  if regra.historico ≠ "" then { r2 with historico := regra.historico } else r2

/-- The saved-rule override applied to one conciliation row (the body of the
`regras_salvas` loop, `src/src/core/app.py` lines 1077-1092): compute the
key and hash from the row, look the hash up in the saved-rules dict, and
overwrite the code fields from the rule found, if any. -/
def aplicar_regra_salva (regras : List (String × Regra)) (row : ConcRow) : ConcRow :=
  match gerar_hash (criar_chave_regra row) with
  | none => row
  | some h =>
    match dlookup regras h with
    | none => row
    | some regra => sobrescrever_campos regra row

/-- The whole override pass over the dataset. -/
def aplicar_regras_salvas (regras : List (String × Regra)) (rows : List ConcRow) :
    List ConcRow :=
  rows.map (aplicar_regra_salva regras)

/-- C1: the cascade only ever populates the side matching the row's type —
for every row whose (normalized) type is DEBIT the credit function returns
the empty string, and for every row whose type is CREDIT the debit function
returns the empty string. -/
theorem cascata_so_popula_lado_do_tipo (row : OfxTrans) :
    (pyUpper (pyStrip row.tipo) = "DEBIT" → calcular_credito row = "") ∧
    (pyUpper (pyStrip row.tipo) = "CREDIT" → calcular_debito row = "") := by
  constructor <;> intro h <;> simp [calcular_credito, calcular_debito, h]

/-- Witness for C1 at a concrete DEBIT row and a concrete CREDIT row. -/
theorem cascata_so_popula_lado_do_tipo_witness :
    (pyUpper (pyStrip "DEBIT") = "DEBIT" ∧
      calcular_credito ⟨⟨0, 0⟩, -5, "DEBIT", "1", "TARIFA COBRANÇA", "", "x.ofx"⟩ = "") ∧
    (pyUpper (pyStrip "credit ") = "CREDIT" ∧
      calcular_debito ⟨⟨0, 0⟩, 7, "credit ", "2", "CR COMPRAS", "", "x.ofx"⟩ = "") := by
  refine ⟨⟨by decide, ?_⟩, ⟨by decide, ?_⟩⟩
  · exact (cascata_so_popula_lado_do_tipo _).1 (by decide)
  · exact (cascata_so_popula_lado_do_tipo _).2 (by decide)

/-! ## Properties of the rule persistence layer -/

/-- The rule key reads only the complement and origin fields of a row. -/
theorem criar_chave_regra_congr {e1 e2 : ConcRow}
    (ho : e1.origem = e2.origem) (hc : e1.complemento = e2.complemento) :
    criar_chave_regra e1 = criar_chave_regra e2 := by
  unfold criar_chave_regra
  rw [ho, hc]

theorem sobrescrever_campos_complemento (regra : Regra) (row : ConcRow) :
    (sobrescrever_campos regra row).complemento = row.complemento := by
  unfold sobrescrever_campos
  split_ifs <;> rfl

theorem sobrescrever_campos_origem (regra : Regra) (row : ConcRow) :
    (sobrescrever_campos regra row).origem = row.origem := by
  unfold sobrescrever_campos
  split_ifs <;> rfl

theorem sobrescrever_campos_data (regra : Regra) (row : ConcRow) :
    (sobrescrever_campos regra row).data = row.data := by
  unfold sobrescrever_campos
  split_ifs <;> rfl

theorem sobrescrever_campos_valor (regra : Regra) (row : ConcRow) :
    (sobrescrever_campos regra row).valor = row.valor := by
  unfold sobrescrever_campos
  split_ifs <;> rfl

theorem sobrescrever_campos_selecionar (regra : Regra) (row : ConcRow) :
    (sobrescrever_campos regra row).selecionar = row.selecionar := by
  unfold sobrescrever_campos
  split_ifs <;> rfl

theorem sobrescrever_campos_idem (regra : Regra) (row : ConcRow) :
    sobrescrever_campos regra (sobrescrever_campos regra row) =
      sobrescrever_campos regra row := by
  unfold sobrescrever_campos
  split_ifs <;> rfl

theorem aplicar_regra_salva_eq_of_none {regras : List (String × Regra)} {row : ConcRow}
    (hh : gerar_hash (criar_chave_regra row) = none) :
    aplicar_regra_salva regras row = row := by
  simp [aplicar_regra_salva, hh]

theorem aplicar_regra_salva_eq_of_miss {regras : List (String × Regra)} {row : ConcRow}
    {h : String} (hh : gerar_hash (criar_chave_regra row) = some h)
    (hl : dlookup regras h = none) :
    aplicar_regra_salva regras row = row := by
  simp [aplicar_regra_salva, hh, hl]

theorem aplicar_regra_salva_eq_of_hit {regras : List (String × Regra)} {row : ConcRow}
    {h : String} {regra : Regra} (hh : gerar_hash (criar_chave_regra row) = some h)
    (hl : dlookup regras h = some regra) :
    aplicar_regra_salva regras row = sobrescrever_campos regra row := by
  simp [aplicar_regra_salva, hh, hl]

theorem aplicar_regra_salva_chave (regras : List (String × Regra)) (row : ConcRow) :
    criar_chave_regra (aplicar_regra_salva regras row) = criar_chave_regra row := by
  cases hh : gerar_hash (criar_chave_regra row) with
  | none => rw [aplicar_regra_salva_eq_of_none hh]
  | some h =>
    cases hl : dlookup regras h with
    | none => rw [aplicar_regra_salva_eq_of_miss hh hl]
    | some regra =>
      rw [aplicar_regra_salva_eq_of_hit hh hl]
      exact criar_chave_regra_congr (sobrescrever_campos_origem regra row)
        (sobrescrever_campos_complemento regra row)

theorem aplicar_regra_salva_idem (regras : List (String × Regra)) (row : ConcRow) :
    aplicar_regra_salva regras (aplicar_regra_salva regras row) =
      aplicar_regra_salva regras row := by
  cases hh : gerar_hash (criar_chave_regra row) with
  | none => rw [aplicar_regra_salva_eq_of_none hh, aplicar_regra_salva_eq_of_none hh]
  | some h =>
    have hh2 : gerar_hash (criar_chave_regra (aplicar_regra_salva regras row)) = some h := by
      rw [aplicar_regra_salva_chave]; exact hh
    cases hl : dlookup regras h with
    | none =>
      rw [aplicar_regra_salva_eq_of_miss hh2 hl, aplicar_regra_salva_eq_of_miss hh hl]
    | some regra =>
      rw [aplicar_regra_salva_eq_of_hit hh2 hl, aplicar_regra_salva_eq_of_hit hh hl]
      exact sobrescrever_campos_idem regra row

/-- C2: the rule-persistence key is deterministic and depends only on the
origin and complement of an entry — equal (origin, complement) pairs yield
equal keys, and changing only the débito, crédito, or histórico fields of
an entry never changes its key. -/
theorem chave_regra_determinista :
    (∀ e1 e2 : ConcRow, e1.origem = e2.origem → e1.complemento = e2.complemento →
      criar_chave_regra e1 = criar_chave_regra e2) ∧
    (∀ (e : ConcRow) (d c h : String),
      criar_chave_regra { e with debito := d, credito := c, historico := h } =
        criar_chave_regra e) := by
  constructor
  · intro e1 e2 ho hc
    exact criar_chave_regra_congr ho hc
  · intro e d c h
    exact criar_chave_regra_congr rfl rfl

/-- Witness for C2 at two concrete entries agreeing on origin and
complement but differing in all code fields. -/
theorem chave_regra_determinista_witness :
    criar_chave_regra ⟨false, "1", "2", "3", "01/01/2024", "10,00", "D - TAR | X", "a.ofx"⟩ =
      criar_chave_regra ⟨true, "7", "8", "9", "02/02/2024", "99,99", "D - TAR | X", "a.ofx"⟩ := by
  exact chave_regra_determinista.1 _ _ rfl rfl

/-- C3: applying the saved-rules override twice yields exactly the same
dataset as applying it once (idempotence). -/
theorem aplicar_regras_salvas_idem (regras : List (String × Regra)) (rows : List ConcRow) :
    aplicar_regras_salvas regras (aplicar_regras_salvas regras rows) =
      aplicar_regras_salvas regras rows := by
  unfold aplicar_regras_salvas
  rw [List.map_map]
  congr 1
  funext row
  exact aplicar_regra_salva_idem regras row

/-- C9: the saved-rule override is a frame for everything except the code
fields — data, valor, complemento, origem and selecionar are preserved for
every entry, an entry whose hash is null is unchanged, and an entry whose
hash has no saved rule is unchanged. -/
theorem aplicar_regra_salva_frame (regras : List (String × Regra)) (row : ConcRow) :
    ((aplicar_regra_salva regras row).data = row.data ∧
     (aplicar_regra_salva regras row).valor = row.valor ∧
     (aplicar_regra_salva regras row).complemento = row.complemento ∧
     (aplicar_regra_salva regras row).origem = row.origem ∧
     (aplicar_regra_salva regras row).selecionar = row.selecionar) ∧
    (gerar_hash (criar_chave_regra row) = none → aplicar_regra_salva regras row = row) ∧
    ((∀ h, gerar_hash (criar_chave_regra row) = some h → dlookup regras h = none) →
      aplicar_regra_salva regras row = row) := by
  cases hh : gerar_hash (criar_chave_regra row) with
  | none =>
    rw [aplicar_regra_salva_eq_of_none hh]
    exact ⟨⟨rfl, rfl, rfl, rfl, rfl⟩, fun _ => rfl, fun _ => rfl⟩
  | some h =>
    cases hl : dlookup regras h with
    | none =>
      rw [aplicar_regra_salva_eq_of_miss hh hl]
      refine ⟨⟨rfl, rfl, rfl, rfl, rfl⟩, fun _ => rfl, fun _ => rfl⟩
    | some regra =>
      rw [aplicar_regra_salva_eq_of_hit hh hl]
      refine ⟨⟨sobrescrever_campos_data regra row, sobrescrever_campos_valor regra row,
        sobrescrever_campos_complemento regra row, sobrescrever_campos_origem regra row,
        sobrescrever_campos_selecionar regra row⟩, ?_, ?_⟩
      · intro hcon
        cases hcon
      · intro hall
        have hnone := hall h rfl
        rw [hnone] at hl
        cases hl

/-- Witness for C9: a rule-less table leaves a concrete entry untouched,
and the field projections agree on a concrete entry and rule table. -/
theorem aplicar_regra_salva_frame_witness :
    aplicar_regra_salva [] ⟨false, "", "", "", "03/03/2024", "5,00", "D - TAR PIX | Y", "b.ofx"⟩ =
      ⟨false, "", "", "", "03/03/2024", "5,00", "D - TAR PIX | Y", "b.ofx"⟩ := by
  exact (aplicar_regra_salva_frame [] _).2.2 (fun h _ => rfl)

/-! ## Settlement Aggregator (`df_liquidacoes_ofx` / groupby-sum)

`src/src/core/app.py` lines 1011-1015 partition the OFX rows on the exact
settlement marker memo; lines 1033-1036 group the settlement rows by the
normalized date and sum their amounts. The groupby is embedded as a fold
that accumulates one running total per distinct normalized date. -/

def MARCADOR_LIQUIDACAO : String := "CRÉD.LIQUIDAÇÃO COBRANÇA"

/-- `df_extratos[df_extratos['memo'] == 'CRÉD.LIQUIDAÇÃO COBRANÇA']`. -/
def df_liquidacoes_ofx (rows : List OfxTrans) : List OfxTrans :=
  rows.filter (fun r => r.memo == MARCADOR_LIQUIDACAO)

/-- `df_extratos[df_extratos['memo'] != 'CRÉD.LIQUIDAÇÃO COBRANÇA']`. -/
def df_ofx_processado (rows : List OfxTrans) : List OfxTrans :=
  rows.filter (fun r => r.memo != MARCADOR_LIQUIDACAO)

/-- Add an amount to the running total of a key, inserting the key at the
end if it is new (one output row per distinct groupby key). -/
def agregar {κ : Type} [DecidableEq κ] (m : List (κ × Rat)) (k : κ) (v : Rat) :
    List (κ × Rat) :=
  match m with
  | [] => [(k, v)]
  | (k', v') :: rest =>
    if k = k' then (k', v' + v) :: rest else (k', v') :: agregar rest k v

/-- `df_liquidacoes_ofx.groupby('data_dt')['valor'].sum()`: the per-date
settlement totals, keyed by the normalized date. -/
def df_liquidacoes_ofx_agg (rows : List OfxTrans) : List (PyTimestamp × Rat) :=
  (df_liquidacoes_ofx rows).foldl
    (fun m r => agregar m (normalizeTs r.data) r.valor) []

theorem agregar_sum {κ : Type} [DecidableEq κ] (m : List (κ × Rat)) (k : κ) (v : Rat) :
    ((agregar m k v).map Prod.snd).sum = ((m.map Prod.snd).sum) + v := by
  induction m with
  | nil => simp [agregar]
  | cons p rest ih =>
    obtain ⟨k', v'⟩ := p
    by_cases hk : k = k'
    · simp [agregar, hk]
      ring
    · simp [agregar, hk, ih]
      ring

theorem foldl_agregar_sum (l : List OfxTrans) (m : List (PyTimestamp × Rat)) :
    (((l.foldl (fun m r => agregar m (normalizeTs r.data) r.valor) m).map
      Prod.snd).sum) = ((m.map Prod.snd).sum) + ((l.map OfxTrans.valor).sum) := by
  induction l generalizing m with
  | nil => simp
  | cons r rest ih =>
    simp only [List.foldl_cons, List.map_cons, List.sum_cons]
    rw [ih, agregar_sum]
    ring

/-- C5: the settlement aggregator conserves the total — the sum over all
dates of the per-date settlement totals equals the sum of the amounts of
all rows whose memo equals the settlement marker. -/
theorem liquidacoes_agg_conserva_total (rows : List OfxTrans) :
    ((df_liquidacoes_ofx_agg rows).map Prod.snd).sum =
      ((df_liquidacoes_ofx rows).map OfxTrans.valor).sum := by
  unfold df_liquidacoes_ofx_agg
  rw [foldl_agregar_sum]
  simp

/-! ## InterestRow derivation (`linhas_mora`, "Gerar Francesinha Completa")

`src/src/core/app.py` lines 922-941: iterate over the records as they stood
before any interest row was added (`df_sem_mora`), and for each record whose
`Vlr_Mora` is present, non-empty and greater than zero, append one copy with
the late fee promoted into the amount fields, the fee/discount/addition
fields zeroed, and the origin tag "Juros de Mora". -/

/-- A normalized Francesinha record. `Option Rat` fields model numeric
cells that may be `NaN` or the empty string. -/
structure FranRow where
  sacado : String
  nosso_numero : String
  seu_numero : String
  dt_previsao_credito : String
  vencimento : String
  dt_limite_pgto : String
  valor_rs : Option Rat
  vlr_mora : Option Rat
  vlr_desc : Option Rat
  vlr_outros_acresc : Option Rat
  dt_liquid : String
  vlr_cobrado : Option Rat
  arquivo_origem : String
deriving DecidableEq, Repr

/-- `float(row['Vlr_Mora']) if pd.notna(row['Vlr_Mora']) and row['Vlr_Mora'] != '' else 0`. -/
def vlrMoraVal (row : FranRow) : Rat := row.vlr_mora.getD 0

/-- The copied interest row built from a qualifying record. -/
def nova_linha_mora (row : FranRow) : FranRow :=
  { row with
    valor_rs := some (vlrMoraVal row)
    vlr_cobrado := some (vlrMoraVal row)
    vlr_mora := some 0
    vlr_desc := some 0
    vlr_outros_acresc := some 0
    arquivo_origem := "Juros de Mora" }

/-- The `linhas_mora` accumulation loop over `df_sem_mora`. -/
def linhas_mora : List FranRow → List FranRow
  | [] => []
  | r :: rs =>
    if 0 < vlrMoraVal r then nova_linha_mora r :: linhas_mora rs else linhas_mora rs

/-- `pd.concat([df_sem_mora, df_mora])` after filtering on a non-empty
`Dt_Previsao_Credito`. -/
def gerar_francesinha_completa (rows : List FranRow) : List FranRow :=
  let kept := rows.filter (fun r => r.dt_previsao_credito != "")
  kept ++ linhas_mora kept

theorem linhas_mora_eq_filter_map (rows : List FranRow) :
    linhas_mora rows =
      (rows.filter (fun r => decide (0 < vlrMoraVal r))).map nova_linha_mora := by
  induction rows with
  | nil => rfl
  | cons r rest ih =>
    by_cases h : 0 < vlrMoraVal r <;> simp [linhas_mora, h, ih]

/-- C4: exactly one interest row is derived per record with a positive late
fee (in order, as a copy via `nova_linha_mora`), zero for the others, every
derived interest row carries a zero late fee, and re-processing the derived
rows spawns no further interest rows (no cascading). -/
theorem linhas_mora_exatamente_uma (rows : List FranRow) :
    linhas_mora rows =
      (rows.filter (fun r => decide (0 < vlrMoraVal r))).map nova_linha_mora ∧
    (linhas_mora rows).length = rows.countP (fun r => decide (0 < vlrMoraVal r)) ∧
    (linhas_mora rows).all (fun r => vlrMoraVal r == 0) = true ∧
    linhas_mora (linhas_mora rows) = [] := by
  refine ⟨linhas_mora_eq_filter_map rows, ?_, ?_, ?_⟩
  · rw [linhas_mora_eq_filter_map, List.length_map]
    exact (List.countP_eq_length_filter _ _).symm
  · rw [linhas_mora_eq_filter_map]
    simp only [List.all_eq_true, List.mem_map, List.mem_filter]
    rintro r ⟨s, _, rfl⟩
    simp [nova_linha_mora, vlrMoraVal]
  · rw [linhas_mora_eq_filter_map, linhas_mora_eq_filter_map]
    have : ((rows.filter (fun r => decide (0 < vlrMoraVal r))).map
        nova_linha_mora).filter (fun r => decide (0 < vlrMoraVal r)) = [] := by
      rw [List.filter_eq_nil_iff]
      rintro r hr
      simp only [List.mem_map, List.mem_filter] at hr
      obtain ⟨s, _, rfl⟩ := hr
      simp [nova_linha_mora, vlrMoraVal]
    rw [this]
    rfl

/-! ## Batch Override Tool ("Aplicar Lista de Clientes e Reclassificar")

`src/src/core/app.py` lines 1153-1181: the allow-list names are stripped,
upper-cased (line 1156) and truncated to 40 characters (line 1169); each
entry's payer name is derived from the complement as first `|`-segment,
`'C -'` removed, stripped, upper-cased, truncated to 40 characters (line
1166); entries whose origin contains "francesinha" (case-insensitive) get
crédito `13709` / histórico `78` on a match and `10550` / `78` otherwise;
entries of other origins are untouched. -/

/-- Python `str.replace(pat, repl)`, via a fuel parameter that starts at the
length of the text (each step consumes at least one character, so the fuel
never runs out on the real call). -/
def pyReplaceAux (pat repl : List Char) : Nat → List Char → List Char
  | _, [] => []
  | 0, s => s
  | fuel + 1, c :: cs =>
    if pat ≠ [] ∧ startsWithL pat (c :: cs) = true then
      repl ++ pyReplaceAux pat repl fuel ((c :: cs).drop pat.length)
    else c :: pyReplaceAux pat repl fuel cs

def pyReplace (s pat repl : List Char) : List Char := pyReplaceAux pat repl s.length s

/-- The derived payer name of an entry (`sacado_temp`, line 1166). -/
def sacado_temp (complemento : String) : String :=
  pyTake 40 (pyUpper (pyStrip (String.mk
    (pyReplace ((pySplitChar '|' complemento).headD "").data "C -".data "".data))))

/-- The normalized allow-list (lines 1156 and 1169). -/
def nomes_clientes_pj_limitados (nomes : List String) : List String :=
  (nomes.map (fun n => pyUpper (pyStrip n))).map (fun n => pyTake 40 n)

/-- `df_atual['origem'].str.contains('francesinha', case=False, na=False)`. -/
def condicao_francesinha (row : ConcRow) : Bool :=
  containsSubstr (pyLower row.origem) "francesinha"

/-- The reclassification pass over the conciliation dataset (lines
1163-1181). -/
def aplicar_lista_clientes (nomes : List String) (rows : List ConcRow) : List ConcRow :=
  let lim := nomes_clientes_pj_limitados nomes
  rows.map (fun row =>
    if condicao_francesinha row then
      if lim.contains (sacado_temp row.complemento) then
        { row with credito := "13709", historico := "78" }
      else
        { row with credito := "10550", historico := "78" }
    else row)

theorem aplicar_lista_clientes_length (nomes : List String) (rows : List ConcRow) :
    (aplicar_lista_clientes nomes rows).length = rows.length := by
  unfold aplicar_lista_clientes
  simp

/-- C8: per entry, the override tool forces crédito `13709` / histórico `78`
on Francesinha-origin entries whose derived payer name is on the normalized
allow-list, forces crédito `10550` / histórico `78` on the other
Francesinha-origin entries, and leaves entries of other origins exactly
unchanged (all remaining fields are preserved in every case). -/
theorem aplicar_lista_clientes_spec (nomes : List String) (rows : List ConcRow)
    (i : Nat) (hi : i < rows.length) :
    (aplicar_lista_clientes nomes rows).get
        ⟨i, by rw [aplicar_lista_clientes_length]; exact hi⟩ =
      (if condicao_francesinha (rows.get ⟨i, hi⟩) then
        if (nomes_clientes_pj_limitados nomes).contains
            (sacado_temp (rows.get ⟨i, hi⟩).complemento) then
          { rows.get ⟨i, hi⟩ with credito := "13709", historico := "78" }
        else
          { rows.get ⟨i, hi⟩ with credito := "10550", historico := "78" }
      else rows.get ⟨i, hi⟩) := by
  unfold aplicar_lista_clientes
  simp [List.get_map]

/-- Witness for C8 at entry 0 of a three-entry dataset: the matching
Francesinha entry is forced to crédito 13709 / histórico 78. -/
theorem aplicar_lista_clientes_spec_witness :
    (aplicar_lista_clientes ["acme ltda "]
        [⟨false, "", "", "", "01/01/2024", "1,00", "C - ACME LTDA | 10,00 | CRÉD.LIQUIDAÇÃO COBRANÇA | 01/01/2024", "francesinha_jan"⟩,
         ⟨false, "", "", "", "01/01/2024", "2,00", "C - JOSÉ DA SILVA | 10,00 | CRÉD.LIQUIDAÇÃO COBRANÇA | 01/01/2024", "francesinha_jan"⟩,
         ⟨false, "1", "", "8", "02/01/2024", "3,00", "D - TARIFA | PIX", "extrato.ofx"⟩]).get
        ⟨0, by rw [aplicar_lista_clientes_length]; decide⟩ =
      ⟨false, "", "13709", "78", "01/01/2024", "1,00", "C - ACME LTDA | 10,00 | CRÉD.LIQUIDAÇÃO COBRANÇA | 01/01/2024", "francesinha_jan"⟩ := by
  exact (aplicar_lista_clientes_spec ["acme ltda "]
    [⟨false, "", "", "", "01/01/2024", "1,00", "C - ACME LTDA | 10,00 | CRÉD.LIQUIDAÇÃO COBRANÇA | 01/01/2024", "francesinha_jan"⟩,
     ⟨false, "", "", "", "01/01/2024", "2,00", "C - JOSÉ DA SILVA | 10,00 | CRÉD.LIQUIDAÇÃO COBRANÇA | 01/01/2024", "francesinha_jan"⟩,
     ⟨false, "1", "", "8", "02/01/2024", "3,00", "D - TARIFA | PIX", "extrato.ofx"⟩]
    0 (by decide)).trans (by decide)

/-! ## Entity Classifier (`classificar_sacado` / `classificar_sacado_batch`)

The spaCy model is an external capability: it is embedded as an optional
function from a name to the ordered list of entity labels found in it
(`'PER'`, `'ORG'`, ...). The known-classifications dictionary read from the
database by `get_classificacoes_conhecidas` (whose definition is not part
of the repository snapshot) is likewise an explicit input association
list. -/

abbrev Nlp := String → List String

def COMPANY_SUFFIXES : List String :=
  ["LTDA", "S/A", "SA", "ME", "EIRELI", "CIA", "MEI", "EPP", "EIRELE", "S.A",
   "ASSOCIACAO", "SEGURANCA", "AUTOMACAO", "ROBOTICA", "TECNOLOGIA",
   "SOLUCOES", "COMERCIO", "FERRAMENTAS", "CFC", "CORRESPONDENTE",
   "PET SERVICE", "ORGANIZACAO", "INSTALACOES", "TREINAMENTOS",
   "GREMIO", "IGREJA", "INDUSTRIA", "SINDICATO", "CONSTRUTORA", "SOFTWARE",
   "MOTORES", "ARMAZENAGEM", "CONTABEIS", "ACO", "EQUIPAMENTOS",
   "EXPRESS", "TRANSPORTES"]

/-- `any(suffix in sacado.upper() for suffix in COMPANY_SUFFIXES)`. -/
def temSufixoEmpresa (sacado : String) : Bool :=
  COMPANY_SUFFIXES.any (fun suffixo => containsSubstr (pyUpper sacado) suffixo)

/-- The entity loop of `classificar_sacado`: the first entity labelled
`'ORG'` or `'PER'` decides (`'ORG'` → PJ, `'PER'` → PF). -/
def primeiraDecisaoEnt : List String → Option String
  | [] => none
  | l :: ls =>
    if l = "ORG" then some "PJ"
    else if l = "PER" then some "PF"
    else primeiraDecisaoEnt ls

/-- `classificar_sacado` of `src/src/core/app.py` (lines 508-529). -/
def classificar_sacado (nlp : Option Nlp) (sacado : String) : String :=
  match nlp with
  | none => "Indefinido"
  | some f =>
    if sacado = "" then "Indefinido"
    else if temSufixoEmpresa sacado then "PJ"
    else
      match primeiraDecisaoEnt (f sacado) with
      | some r => r
      | none =>
        if (splitWs sacado).length ≤ 4 then "PF"
        else "Indefinido"

/-- The per-new-name cascade inside the `classificar_sacado_batch` loop
(lines 541-570), for a non-empty name. -/
def classificar_sacado_novo (f : Nlp) (sacado : String) : String :=
  if temSufixoEmpresa sacado then "PJ"
  else
    let ents := f sacado
    let is_per := ents.any (fun l => l == "PER")
    let is_org := ents.any (fun l => l == "ORG")
    if is_per && !is_org then "PF"
    else if is_org && !is_per then "PJ"
    else if pyIsUpper sacado && decide ((splitWs sacado).length > 1) then "PJ"
    else "PJ"

/-- Python dict assignment `d[k] = v`: overwrite in place or append. -/
def dinsert {β : Type} : List (String × β) → String → β → List (String × β)
  | [], k, v => [(k, v)]
  | (k', v') :: rest, k, v =>
    if k' = k then (k', v) :: rest else (k', v') :: dinsert rest k v

/-- `classificar_sacado_batch` of `src/src/core/app.py` (lines 531-572).
`conhecidas` is the dictionary returned by `get_classificacoes_conhecidas`;
the loop only runs when the spaCy model is available, and skips names
already known and empty names. -/
def classificar_sacado_batch (conhecidas : List (String × String)) (nlp : Option Nlp)
    (sacados_unicos : List String) : List (String × String) :=
  let novos := sacados_unicos.filter (fun s => (dlookup conhecidas s).isNone)
  match nlp with
  | none => conhecidas
  | some f =>
    novos.foldl
      (fun acc s => if s = "" then acc else dinsert acc s (classificar_sacado_novo f s))
      conhecidas

theorem dlookup_dinsert {β : Type} (m : List (String × β)) (k s : String) (v : β) :
    dlookup (dinsert m k v) s = if s = k then some v else dlookup m s := by
  induction m with
  | nil => simp [dinsert, dlookup]
  | cons p rest ih =>
    obtain ⟨k', v'⟩ := p
    by_cases hk : k' = k
    · subst hk
      by_cases hs : s = k' <;> simp [dinsert, dlookup, hs]
    · by_cases hs : s = k'
      · have hsk : ¬s = k := fun hc => hk (hs.symm.trans hc)
        simp [dinsert, dlookup, hk, hs, hsk]
      · simp [dinsert, dlookup, hk, hs, ih]

theorem dlookup_batch_foldl (f : Nlp) (l : List String) (acc : List (String × String))
    (s : String) :
    dlookup (l.foldl
        (fun acc s => if s = "" then acc else dinsert acc s (classificar_sacado_novo f s))
        acc) s =
      if s ∈ l ∧ s ≠ "" then some (classificar_sacado_novo f s)
      else dlookup acc s := by
  induction l generalizing acc with
  | nil => simp
  | cons a rest ih =>
    simp only [List.foldl_cons]
    rw [ih]
    by_cases hmem : s ∈ rest ∧ s ≠ ""
    · rw [if_pos hmem,
        if_pos (⟨List.mem_cons_of_mem a hmem.1, hmem.2⟩ : s ∈ a :: rest ∧ s ≠ "")]
    · rw [if_neg hmem]
      by_cases ha : a = ""
      · rw [if_pos ha]
        have hs : ¬(s ∈ a :: rest ∧ s ≠ "") := by
          intro hs
          rcases List.mem_cons.mp hs.1 with h1 | h1
          · exact hs.2 (h1.trans ha)
          · exact hmem ⟨h1, hs.2⟩
        rw [if_neg hs]
      · rw [if_neg ha, dlookup_dinsert]
        by_cases hsa : s = a
        · subst hsa
          rw [if_pos rfl, if_pos (⟨List.mem_cons_self s rest, ha⟩ : s ∈ s :: rest ∧ s ≠ "")]
        · rw [if_neg hsa]
          have hno : ¬(s ∈ a :: rest ∧ s ≠ "") := by
            intro hs
            rcases List.mem_cons.mp hs.1 with h1 | h1
            · exact hsa h1
            · exact hmem ⟨h1, hs.2⟩
          rw [if_neg hno]

/-- The final per-name content of the batch classification: known names
keep their database classification, new non-empty names listed in the batch
get the in-loop cascade result, everything else is absent. -/
theorem dlookup_classificar_sacado_batch (conhecidas : List (String × String))
    (f : Nlp) (sacados : List String) (s : String) :
    dlookup (classificar_sacado_batch conhecidas (some f) sacados) s =
      if s ∈ sacados ∧ (dlookup conhecidas s).isNone ∧ s ≠ "" then
        some (classificar_sacado_novo f s)
      else dlookup conhecidas s := by
  unfold classificar_sacado_batch
  rw [dlookup_batch_foldl]
  by_cases h : s ∈ sacados ∧ (dlookup conhecidas s).isNone ∧ s ≠ ""
  · rw [if_pos h, if_pos ⟨List.mem_filter.mpr ⟨h.1, by simp [h.2.1]⟩, h.2.2⟩]
  · rw [if_neg h]
    by_cases h2 : s ∈ sacados.filter (fun s => (dlookup conhecidas s).isNone) ∧ s ≠ ""
    · exfalso
      have := List.mem_filter.mp h2.1
      exact h ⟨this.1, by simpa using this.2, h2.2⟩
    · rw [if_neg h2]

theorem primeiraDecisaoEnt_eq_none (ls : List String)
    (hper : ls.any (fun l => l == "PER") = false)
    (horg : ls.any (fun l => l == "ORG") = false) :
    primeiraDecisaoEnt ls = none := by
  induction ls with
  | nil => rfl
  | cons a rest ih =>
    simp only [List.any_cons, Bool.or_eq_false_iff] at hper horg
    have ha1 : ¬a = "ORG" := by simpa using horg.1
    have ha2 : ¬a = "PER" := by simpa using hper.1
    simp [primeiraDecisaoEnt, ha1, ha2, ih hper.2 horg.2]

/-- C10: when the spaCy model is unavailable the single-name classifier
returns "Indefinido" for every name — including the empty name and names
containing corporate-suffix tokens — without evaluating any heuristic. -/
theorem classificar_sacado_sem_nlp (sacado : String) :
    classificar_sacado none sacado = "Indefinido" := rfl

/-- C6 counterexample: the name "padaria central" satisfies every premise
of the claim — non-empty, no corporate-suffix token, the recognizer yields
no entities, and it is not fully upper-case with more than one word — yet
the single-name classifier returns "PF", not the claimed "PJ". -/
theorem classificar_sacado_fallback_contraexemplo :
    ("padaria central" ≠ "" ∧
     temSufixoEmpresa "padaria central" = false ∧
     (fun _ : String => ([] : List String)) "padaria central" = [] ∧
     pyIsUpper "padaria central" = false) ∧
    classificar_sacado (some (fun _ => [])) "padaria central" = "PF" ∧
    ("PF" : String) ≠ "PJ" := by
  decide

/-- C6 (amended): the fallback-to-Company default lives in the batch
classifier — every new, non-empty batch name with no corporate-suffix
token, no decisive entity label and not fully upper-case multi-word is
classified "PJ" — while the single-name classifier instead falls back to
"PF" for names of at most four words and to "Indefinido" otherwise. -/
theorem classificar_batch_fallback_pj (conhecidas : List (String × String))
    (f : Nlp) (sacados : List String) (s : String)
    (hmem : s ∈ sacados) (hconh : dlookup conhecidas s = none) (hne : s ≠ "")
    (hsuf : temSufixoEmpresa s = false)
    (hper : (f s).any (fun l => l == "PER") = false)
    (horg : (f s).any (fun l => l == "ORG") = false)
    (hcaps : ¬(pyIsUpper s = true ∧ 1 < (splitWs s).length)) :
    dlookup (classificar_sacado_batch conhecidas (some f) sacados) s = some "PJ" ∧
    classificar_sacado (some f) s =
      (if (splitWs s).length ≤ 4 then "PF" else "Indefinido") := by
  constructor
  · rw [dlookup_classificar_sacado_batch]
    rw [if_pos ⟨hmem, by rw [hconh]; rfl, hne⟩]
    simp [classificar_sacado_novo, hsuf, hper, horg]
  · simp [classificar_sacado, hne, hsuf, primeiraDecisaoEnt_eq_none (f s) hper horg]

/-- Witness for C6 (amended) at the concrete name "padaria central" with
an empty known-classifications table and a recognizer with no entities. -/
theorem classificar_batch_fallback_pj_witness :
    dlookup (classificar_sacado_batch [] (some (fun _ => [])) ["padaria central"])
        "padaria central" = some "PJ" ∧
    classificar_sacado (some (fun _ => [])) "padaria central" =
      (if (splitWs "padaria central").length ≤ 4 then "PF" else "Indefinido") := by
  exact classificar_batch_fallback_pj [] (fun _ => []) ["padaria central"]
    "padaria central" (by decide) rfl (by decide) (by decide) rfl rfl (by decide)

/-- C7 counterexample: on the distinct-name list `["padaria central"]` the
batch classifier records "PJ" for the name while the single-name classifier
returns "PF" — the batch result is not the per-name `classificar_sacado`
result. -/
theorem batch_nao_equivale_individual_contraexemplo :
    dlookup (classificar_sacado_batch [] (some (fun _ => [])) ["padaria central"])
        "padaria central" = some "PJ" ∧
    classificar_sacado (some (fun _ => [])) "padaria central" = "PF" ∧
    ("PJ" : String) ≠ "PF" := by
  decide

/-- C7 (amended): the batch classifier is order-independent — permuting the
input list leaves every per-name result identical — but it is not
equivalent to mapping the single-name classifier over the names (the two
cascades diverge on the ambiguity fallback, as the counterexample shows). -/
theorem classificar_batch_ordem_independente (conhecidas : List (String × String))
    (nlp : Option Nlp) (l l' : List String) (hperm : l.Perm l') (s : String) :
    dlookup (classificar_sacado_batch conhecidas nlp l) s =
      dlookup (classificar_sacado_batch conhecidas nlp l') s := by
  cases nlp with
  | none => rfl
  | some f =>
    rw [dlookup_classificar_sacado_batch, dlookup_classificar_sacado_batch]
    exact if_congr (and_congr hperm.mem_iff Iff.rfl) rfl rfl

/-- Witness for C7 (amended): classifying `["ANA", "BAR"]` and
`["BAR", "ANA"]` gives the same result for the name "ANA". -/
theorem classificar_batch_ordem_independente_witness :
    dlookup (classificar_sacado_batch [] (some (fun _ => [])) ["ANA", "BAR"]) "ANA" =
      dlookup (classificar_sacado_batch [] (some (fun _ => [])) ["BAR", "ANA"]) "ANA" := by
  exact classificar_batch_ordem_independente [] (some (fun _ => []))
    ["ANA", "BAR"] ["BAR", "ANA"] (List.Perm.swap "BAR" "ANA" []) "ANA"

end Concilia
